import Mathlib

/-!
Shallow embedding of the GymApp workout tracker.

Client side (ActiveWorkout component): rest-timer accounting
(`finalizeRestTracking`, `startRest`), transient per-exercise set data
(`startExercise` / per-set edits), and the client `logExercise` coercions.

Server side (edge-function handlers over the key-value store):
`log-exercise`, `complete-workout` and `streak`.

Conventions of the embedding:
* JavaScript timestamps (`Date.now()`, `getTime()`) are integer milliseconds
  (`ℤ`); an ISO timestamp string is carried alongside its millisecond value
  in a `Timestamp` pair, since the handlers use both forms of the same
  instant.
* JavaScript numbers are exact rationals (`ℚ`); a value whose `Number(·)`
  coercion is `NaN` (a non-numeric blob in a stored record) is `JVal.jnan`.
* `Math.round` is `jsRound` (floor of `x + 1/2`, which is how JS rounds
  halves toward positive infinity).
* Calendar dates (`completedAt.split("T")[0]` strings) in the streak
  handler are day numbers (`ℤ`); lexicographic order on ISO date strings
  agrees with the numeric order of day numbers.
-/

namespace GymApp

/-- JavaScript `Math.round`: nearest integer, halves toward `+∞`. -/
def jsRound (q : ℚ) : ℤ := ⌊q + 1/2⌋

/-- A JavaScript numeric field of a loosely-typed stored record: either a
finite number, or a value (string, object, `undefined`, …) whose `Number(·)`
coercion is `NaN`. -/
inductive JVal
  | jnum (q : ℚ)
  | jnan
deriving DecidableEq, Repr

/-- JavaScript `Number(x) || 0`: `NaN` (and `0` itself) collapse to `0`,
every other number passes through unchanged. -/
def JVal.numOr0 : JVal → ℚ
  | .jnum q => q
  | .jnan => 0

/-- One wall-clock instant, carried both as epoch milliseconds
(`getTime()`) and as its ISO-8601 rendering (`toISOString()`). -/
structure Timestamp where
  ms : ℤ
  iso : String
deriving DecidableEq, Repr

/-! ## Client rest-timer state (ActiveWorkout component)

The component state relevant to rest accounting: `restStartedAt`,
`totalRestSeconds` and the `exerciseRestSeconds` record (a map from
exercise index to accumulated seconds, absent keys reading as `0`,
modelled as a total function). -/

structure RestState where
  restStartedAt : Option ℤ
  totalRestSeconds : ℤ
  exerciseRestSeconds : ℕ → ℤ

/-- The rest period actually credited for a rest that started at `t0` and
was finalized at `t1`: `Math.max(0, Math.round((t1 - t0) / 1000))`. -/
def restElapsed (t0 t1 : ℤ) : ℤ := max 0 (jsRound (((t1 - t0 : ℤ) : ℚ) / 1000))

/-- `finalizeRestTracking(exerciseIndex)` from the ActiveWorkout component:
a no-op when `exerciseIndex` is `null` or no rest start instant is
recorded; otherwise credits the wall-clock elapsed seconds to the running
total and to the focused exercise's accumulator, and clears the start
instant. -/
def finalizeRestTracking (exerciseIndex : Option ℕ) (now : ℤ) (s : RestState) : RestState :=
  match exerciseIndex, s.restStartedAt with
  | none, _ => s
  | some _, none => s
  | some i, some t0 =>
    let elapsedSeconds := restElapsed t0 now
    { restStartedAt := none
      totalRestSeconds := s.totalRestSeconds + elapsedSeconds
      exerciseRestSeconds := fun j =>
        if j = i then s.exerciseRestSeconds j + elapsedSeconds
        else s.exerciseRestSeconds j }

/-- `startRest` records the wall-clock start instant (`setRestStartedAt(Date.now())`).
The cosmetic countdown (`restTimer`, `isResting`) is not part of the
accounting state. -/
def startRest (now : ℤ) (s : RestState) : RestState :=
  { s with restStartedAt := some now }

/-- The component's initial rest-accounting state. -/
def initRestState : RestState :=
  { restStartedAt := none, totalRestSeconds := 0, exerciseRestSeconds := fun _ => 0 }

/-- A sequence of complete rest periods: for each `(i, t0, t1)`, a rest for
exercise `i` started at `t0` and finalized at `t1` (by timer expiry, Skip
Rest, or workout completion — all three call `finalizeRestTracking`). -/
def runRestPeriods (s : RestState) : List (ℕ × ℤ × ℤ) → RestState
  | [] => s
  | (i, t0, t1) :: ps => runRestPeriods (finalizeRestTracking (some i) t1 (startRest t0 s)) ps

/-! ## Client set logging (ActiveWorkout component) -/

/-- An exercise of the workout plan. -/
structure Exercise where
  name : String
  sets : ℕ
  minReps : ℤ
  maxReps : ℤ
  restTime : ℤ
deriving DecidableEq, Repr

/-- `startExercise`: the transient reps array is
`new Array(exercise.sets).fill(Math.round((minReps + maxReps) / 2))`. -/
def startExerciseSetsData (ex : Exercise) : List ℤ :=
  List.replicate ex.sets (jsRound (((ex.minReps + ex.maxReps : ℤ) : ℚ) / 2))

/-- A per-set edit in the set logger: `newSetsData[index] = parseInt(value) || 0`
(out-of-range indices leave the list unchanged, as `List.set` does). -/
def editSetReps (sd : List ℤ) (i : ℕ) (v : ℤ) : List ℤ := sd.set i v

/-- The setsData the client submits for an exercise: the transient array
created by `startExercise` with any number of per-set edits applied. -/
def loggedSetsData (ex : Exercise) (edits : List (ℕ × ℤ)) : List ℤ :=
  edits.foldl (fun sd e => editSetReps sd e.1 e.2) (startExerciseSetsData ex)

/-- Client `logExercise` weight coercion: `parseFloat(weight) || 0`, where
the `parseFloat` result is a number or `NaN`. -/
def clientParsedWeight (parsed : JVal) : ℚ := parsed.numOr0

/-! ## Server side: records and the key-value store

The edge function stores loosely-typed blobs; only `start-workout` writes
`workout_session:` keys, only `complete-workout` writes `workout_history:`
keys and only `log-exercise` writes `exercise_weights:` keys, so the store
is modelled with one typed map per key family.  Key prefixes differ, so
the three families never collide. -/

/-- One element of a session's `completedExercises` list, as written by the
`log-exercise` handler. -/
structure ExerciseLogRec where
  exerciseName : String
  setsData : List ℤ
  weight : JVal
  restTakenSeconds : JVal
  completedAt : String
deriving DecidableEq, Repr

/-- The session record written by `start-workout` and mutated by
`log-exercise`.  `startedAt` is `none` when the field is missing or empty
(the `session.startedAt ? … : 0` falsy branch). -/
structure SessionRec where
  userId : String
  workoutDay : String
  exercises : List Exercise
  startedAt : Option Timestamp
  completedExercises : List ExerciseLogRec
deriving DecidableEq, Repr

/-- The history record written by `complete-workout`:
`{ ...session, completedAt, totalRestSeconds, totalWorkoutSeconds }`. -/
structure HistoryRec where
  userId : String
  workoutDay : String
  exercises : List Exercise
  startedAt : Option Timestamp
  completedExercises : List ExerciseLogRec
  completedAt : String
  totalRestSeconds : ℚ
  totalWorkoutSeconds : ℤ
deriving DecidableEq, Repr

/-- One entry of an `exercise_weights:` series. -/
structure WeightEntry where
  weight : JVal
  date : String
deriving DecidableEq, Repr

/-- A `workout_history:` key: (userId, workoutDay-with-colons-replaced,
date part of completedAt, completedAt-with-colons-replaced). -/
abbrev HistoryKey := String × String × String × String

/-- The key-value store, split by key family.  Session keys are indexed by
sessionId, weight series by (userId, exerciseName). -/
structure Store where
  sessions : String → Option SessionRec
  histories : HistoryKey → Option HistoryRec
  weights : String × String → Option (List WeightEntry)

/-- Response body shapes produced by the handlers under study. -/
inductive RespBody
  | error (msg : String)
  | logged
  | completed (completedAt : String) (totalRestSeconds : ℚ) (totalWorkoutSeconds : ℤ)
deriving DecidableEq, Repr

/-- An HTTP response: status code plus JSON body. -/
structure Response where
  status : ℕ
  body : RespBody
deriving DecidableEq, Repr

/-- `replaceAll(":", "_")`: with a one-character pattern this is a
character-wise map. -/
def replaceColons (s : String) : String :=
  ⟨s.data.map (fun c => if c = ':' then '_' else c)⟩

/-- `iso.split("T")[0]`: the prefix before the first `T`, i.e. the
calendar-date part of an ISO timestamp. -/
def datePart (iso : String) : String :=
  ⟨iso.data.takeWhile (fun c => c ≠ 'T')⟩

/-- `String(session.workoutDay || "unknown").replaceAll(":", "_")`: the
workout-day component of the history key (falsy, i.e. empty, day reads as
`"unknown"`). -/
def workoutDayKeyOf (day : String) : String :=
  replaceColons (if day = "" then "unknown" else day)

/-- The `workout_history:` key the `complete-workout` handler writes for
authenticated user `uid`, session record `session`, at instant `now`. -/
def historyKeyOf (uid : String) (session : SessionRec) (now : Timestamp) : HistoryKey :=
  (uid, workoutDayKeyOf session.workoutDay, datePart now.iso, replaceColons now.iso)

/-- `totalRestSeconds` as computed by the `complete-workout` handler:
`completedExercises.reduce((sum, e) => sum + (Number(e.restTakenSeconds) || 0), 0)`. -/
def sessionTotalRest (session : SessionRec) : ℚ :=
  (session.completedExercises.map (fun e => e.restTakenSeconds.numOr0)).sum

/-- `totalWorkoutSeconds` as computed by the `complete-workout` handler:
`Math.max(0, Math.round((completedAt - startedAt) / 1000))`, or `0` when
the session has no (truthy) `startedAt`. -/
def sessionTotalWorkoutSeconds (session : SessionRec) (now : Timestamp) : ℤ :=
  match session.startedAt with
  | some t0 => max 0 (jsRound (((now.ms - t0.ms : ℤ) : ℚ) / 1000))
  | none => 0

/-- The history record `complete-workout` persists. -/
def historyRecOf (session : SessionRec) (now : Timestamp) : HistoryRec :=
  { userId := session.userId
    workoutDay := session.workoutDay
    exercises := session.exercises
    startedAt := session.startedAt
    completedExercises := session.completedExercises
    completedAt := now.iso
    totalRestSeconds := sessionTotalRest session
    totalWorkoutSeconds := sessionTotalWorkoutSeconds session now }

/-- Request body of `POST /log-exercise`. -/
structure LogBody where
  sessionId : String
  exerciseName : String
  setsData : List ℤ
  weight : JVal
  restTakenSeconds : JVal
deriving DecidableEq, Repr

/-- The `completedExercises` entry pushed by `log-exercise`:
`{exerciseName, setsData, weight, restTakenSeconds: Number(restTakenSeconds) || 0, completedAt}`.
The raw `weight` is stored as sent; only `restTakenSeconds` is coerced. -/
def logEntryOf (body : LogBody) (now : Timestamp) : ExerciseLogRec :=
  { exerciseName := body.exerciseName
    setsData := body.setsData
    weight := body.weight
    restTakenSeconds := .jnum body.restTakenSeconds.numOr0
    completedAt := now.iso }

/-- The `log-exercise` handler (authenticated user `uid`, request body
`body`, server clock `now`): 404 and no write when the session key is
absent; otherwise appends the log entry to the session's
`completedExercises`, rewrites the session key, and appends
`{weight, date}` to the exercise's weight-history series. -/
def logExercise (uid : String) (body : LogBody) (now : Timestamp) (store : Store) :
    Response × Store :=
  match store.sessions body.sessionId with
  | none => (⟨404, .error "Session not found"⟩, store)
  | some session =>
    let session' :=
      { session with completedExercises := session.completedExercises ++ [logEntryOf body now] }
    let prevWeights := (store.weights (uid, body.exerciseName)).getD []
    (⟨200, .logged⟩,
     { store with
        sessions := fun sid =>
          if sid = body.sessionId then some session' else store.sessions sid
        weights := fun k =>
          if k = (uid, body.exerciseName)
          then some (prevWeights ++ [⟨body.weight, now.iso⟩])
          else store.weights k })

/-- The `complete-workout` handler (authenticated user `uid`, body
`{sessionId}`, server clock `now`): 404 and no write when the session key
is absent; otherwise writes the history record under `historyKeyOf`,
deletes the session key, and returns
`{success, completedAt, totalRestSeconds, totalWorkoutSeconds}`. -/
def completeWorkout (uid sid : String) (now : Timestamp) (store : Store) :
    Response × Store :=
  match store.sessions sid with
  | none => (⟨404, .error "Session not found"⟩, store)
  | some session =>
    (⟨200, .completed now.iso (sessionTotalRest session) (sessionTotalWorkoutSeconds session now)⟩,
     { store with
        sessions := fun s => if s = sid then none else store.sessions s
        histories := fun k =>
          if k = historyKeyOf uid session now
          then some (historyRecOf session now)
          else store.histories k })

/-! ## The streak handler

The handler collects the distinct `completedAt.split("T")[0]` dates of the
user's history, sorts them ascending (string sort, i.e. chronological for
ISO dates) and reverses, then counts entries while `dates[i]` equals today
minus `i` days.  Dates are day numbers here. -/

/-- The counting loop of the streak handler: walk the descending date list
with the expected date, stopping at the first mismatch. -/
def streakLoop : List ℤ → ℤ → ℕ
  | [], _ => 0
  | d :: rest, expected =>
    if d = expected then streakLoop rest (expected - 1) + 1 else 0

/-- The `streak` handler's computation: distinct completion dates, sorted
ascending and reversed (`Array.from(set).sort().reverse()`), then counted
against consecutive days ending `today`. -/
def streak (dates : List ℤ) (today : ℤ) : ℕ :=
  streakLoop ((dates.dedup.insertionSort (· ≤ ·)).reverse) today

/-! ## Helper lemmas -/

lemma restElapsed_nonneg (t0 t1 : ℤ) : 0 ≤ restElapsed t0 t1 :=
  le_max_left 0 _

lemma finalizeRestTracking_noStart (idx : Option ℕ) (now : ℤ) (s : RestState)
    (h : s.restStartedAt = none) : finalizeRestTracking idx now s = s := by
  cases idx <;> unfold finalizeRestTracking <;> rw [h]

lemma finalizeRestTracking_some (i : ℕ) (now : ℤ) (s : RestState) (t0 : ℤ)
    (h : s.restStartedAt = some t0) :
    finalizeRestTracking (some i) now s =
      { restStartedAt := none
        totalRestSeconds := s.totalRestSeconds + restElapsed t0 now
        exerciseRestSeconds := fun j =>
          if j = i then s.exerciseRestSeconds j + restElapsed t0 now
          else s.exerciseRestSeconds j } := by
  unfold finalizeRestTracking
  rw [h]

lemma runRestPeriods_total (ps : List (ℕ × ℤ × ℤ)) (s : RestState) :
    (runRestPeriods s ps).totalRestSeconds =
      s.totalRestSeconds + (ps.map (fun p => restElapsed p.2.1 p.2.2)).sum := by
  induction ps generalizing s with
  | nil => simp [runRestPeriods]
  | cons p ps ih =>
    obtain ⟨i, t0, t1⟩ := p
    rw [runRestPeriods, ih, finalizeRestTracking_some i t1 (startRest t0 s) t0 rfl]
    simp [startRest]
    ring

/-! ## Claim theorems: client rest accounting -/

/-- C2: a finalize performed while a rest start instant is recorded credits
`max 0 (round ((now − start) / 1000))` seconds to both the session's total
rest and the focused exercise's accumulator; over any sequence of rest
periods, `totalRestSeconds` equals the sum of the per-period elapsed values
and is never negative. -/
theorem rest_finalize_accounting :
    (∀ (s : RestState) (i : ℕ) (t0 now : ℤ), s.restStartedAt = some t0 →
      (finalizeRestTracking (some i) now s).totalRestSeconds
          = s.totalRestSeconds + max 0 (jsRound (((now - t0 : ℤ) : ℚ) / 1000)) ∧
      (finalizeRestTracking (some i) now s).exerciseRestSeconds i
          = s.exerciseRestSeconds i + max 0 (jsRound (((now - t0 : ℤ) : ℚ) / 1000))) ∧
    (∀ ps : List (ℕ × ℤ × ℤ),
      (runRestPeriods initRestState ps).totalRestSeconds
          = (ps.map (fun p => restElapsed p.2.1 p.2.2)).sum ∧
      0 ≤ (runRestPeriods initRestState ps).totalRestSeconds) := by
  constructor
  · intro s i t0 now h
    rw [finalizeRestTracking_some i now s t0 h]
    constructor
    · rfl
    · simp [restElapsed]
  · intro ps
    have htot := runRestPeriods_total ps initRestState
    have hzero : initRestState.totalRestSeconds = 0 := rfl
    rw [hzero, zero_add] at htot
    refine ⟨htot, ?_⟩
    rw [htot]
    apply List.sum_nonneg
    intro x hx
    obtain ⟨p, _, hp⟩ := List.mem_map.mp hx
    rw [← hp]
    exact restElapsed_nonneg _ _

/-- C2 witness: one concrete rest period of 1.5 seconds starting from the
initial state. -/
theorem rest_finalize_accounting_witness :
    ((finalizeRestTracking (some 0) 1500 (startRest 0 initRestState)).totalRestSeconds
        = (startRest 0 initRestState).totalRestSeconds
            + max 0 (jsRound (((1500 - 0 : ℤ) : ℚ) / 1000))) ∧
    (runRestPeriods initRestState [(0, 0, 1500)]).totalRestSeconds
        = (([(0, 0, 1500)] : List (ℕ × ℤ × ℤ)).map (fun p => restElapsed p.2.1 p.2.2)).sum :=
  ⟨(rest_finalize_accounting.1 (startRest 0 initRestState) 0 0 1500 rfl).1,
   (rest_finalize_accounting.2 [(0, 0, 1500)]).1⟩

/-- C3: finalize clears the recorded start instant, finalize with no active
start instant is a no-op, and hence a second finalize without an
intervening start changes nothing. -/
theorem rest_finalize_idempotent :
    (∀ (idx : Option ℕ) (now : ℤ) (s : RestState), s.restStartedAt = none →
        finalizeRestTracking idx now s = s) ∧
    (∀ (i : ℕ) (now₁ now₂ : ℤ) (s : RestState) (t0 : ℤ), s.restStartedAt = some t0 →
        (finalizeRestTracking (some i) now₁ s).restStartedAt = none ∧
        finalizeRestTracking (some i) now₂ (finalizeRestTracking (some i) now₁ s)
          = finalizeRestTracking (some i) now₁ s) := by
  constructor
  · exact fun idx now s h => finalizeRestTracking_noStart idx now s h
  · intro i now₁ now₂ s t0 h
    have h1 : (finalizeRestTracking (some i) now₁ s).restStartedAt = none := by
      rw [finalizeRestTracking_some i now₁ s t0 h]
    exact ⟨h1, finalizeRestTracking_noStart (some i) now₂ _ h1⟩

/-- C3 witness: concrete no-op on the initial state, and a concrete double
finalize after one started rest. -/
theorem rest_finalize_idempotent_witness :
    (finalizeRestTracking (some 0) 99 initRestState = initRestState) ∧
    ((finalizeRestTracking (some 0) 1500 (startRest 0 initRestState)).restStartedAt = none ∧
      finalizeRestTracking (some 0) 2500
          (finalizeRestTracking (some 0) 1500 (startRest 0 initRestState))
        = finalizeRestTracking (some 0) 1500 (startRest 0 initRestState)) :=
  ⟨rest_finalize_idempotent.1 (some 0) 99 initRestState rfl,
   rest_finalize_idempotent.2 0 1500 2500 (startRest 0 initRestState) 0 rfl⟩

/-! ## Claim theorem: client set data -/

lemma loggedSetsData_foldl_length (edits : List (ℕ × ℤ)) (sd : List ℤ) :
    (edits.foldl (fun sd e => editSetReps sd e.1 e.2) sd).length = sd.length := by
  induction edits generalizing sd with
  | nil => rfl
  | cons e edits ih => rw [List.foldl_cons, ih]; simp [editSetReps]

/-- C4: the transient reps array is created with exactly `sets` entries,
each defaulted to the rounded midpoint of `minReps` and `maxReps`, and
per-set edits preserve its length, so the logged setsData has length equal
to the exercise's configured sets. -/
theorem logged_setsData_length :
    ∀ (ex : Exercise) (edits : List (ℕ × ℤ)),
      (loggedSetsData ex edits).length = ex.sets ∧
      (startExerciseSetsData ex).length = ex.sets ∧
      ∀ r ∈ startExerciseSetsData ex,
        r = jsRound (((ex.minReps + ex.maxReps : ℤ) : ℚ) / 2) := by
  intro ex edits
  refine ⟨?_, ?_, ?_⟩
  · rw [loggedSetsData, loggedSetsData_foldl_length]
    simp [startExerciseSetsData]
  · simp [startExerciseSetsData]
  · intro r hr
    exact List.eq_of_mem_replicate hr

/-- C4 witness: a 3-set exercise with an 8–12 rep range and one edit. -/
theorem logged_setsData_length_witness :
    (loggedSetsData ⟨"Bench", 3, 8, 12, 60⟩ [(1, 11)]).length = 3 ∧
    (startExerciseSetsData ⟨"Bench", 3, 8, 12, 60⟩).length = 3 :=
  ⟨(logged_setsData_length ⟨"Bench", 3, 8, 12, 60⟩ [(1, 11)]).1,
   (logged_setsData_length ⟨"Bench", 3, 8, 12, 60⟩ [(1, 11)]).2.1⟩

/-! ## Claim theorems: server handlers -/

lemma logExercise_none (uid : String) (body : LogBody) (now : Timestamp) (store : Store)
    (h : store.sessions body.sessionId = none) :
    logExercise uid body now store = (⟨404, .error "Session not found"⟩, store) := by
  unfold logExercise
  rw [h]

lemma completeWorkout_none (uid sid : String) (now : Timestamp) (store : Store)
    (h : store.sessions sid = none) :
    completeWorkout uid sid now store = (⟨404, .error "Session not found"⟩, store) := by
  unfold completeWorkout
  rw [h]

lemma completeWorkout_some (uid sid : String) (now : Timestamp) (store : Store)
    (session : SessionRec) (h : store.sessions sid = some session) :
    completeWorkout uid sid now store =
      (⟨200, .completed now.iso (sessionTotalRest session)
          (sessionTotalWorkoutSeconds session now)⟩,
       { store with
          sessions := fun s => if s = sid then none else store.sessions s
          histories := fun k =>
            if k = historyKeyOf uid session now
            then some (historyRecOf session now)
            else store.histories k }) := by
  unfold completeWorkout
  rw [h]

/-- C1: a successful complete-workout for a session whose server-side
`startedAt` is `t0`, at server time `now`, returns and persists
`totalWorkoutSeconds = max 0 (round ((now − t0) / 1000))` and
`totalRestSeconds = ` the sum of the persisted completedExercises'
`restTakenSeconds` with non-numeric values contributing `0`. -/
theorem complete_workout_totals (uid sid : String) (now t0 : Timestamp) (store : Store)
    (session : SessionRec)
    (h : store.sessions sid = some session) (h0 : session.startedAt = some t0) :
    (completeWorkout uid sid now store).1 =
      ⟨200, .completed now.iso
        ((session.completedExercises.map (fun e => e.restTakenSeconds.numOr0)).sum)
        (max 0 (jsRound (((now.ms - t0.ms : ℤ) : ℚ) / 1000)))⟩ ∧
    ((completeWorkout uid sid now store).2.histories (historyKeyOf uid session now)).map
        (fun hr => (hr.totalWorkoutSeconds, hr.totalRestSeconds))
      = some (max 0 (jsRound (((now.ms - t0.ms : ℤ) : ℚ) / 1000)),
              (session.completedExercises.map (fun e => e.restTakenSeconds.numOr0)).sum) ∧
    0 ≤ max 0 (jsRound (((now.ms - t0.ms : ℤ) : ℚ) / 1000)) := by
  rw [completeWorkout_some uid sid now store session h]
  refine ⟨?_, ?_, le_max_left 0 _⟩
  · simp [sessionTotalRest, sessionTotalWorkoutSeconds, h0]
  · simp [historyRecOf, sessionTotalRest, sessionTotalWorkoutSeconds, h0]

/-- C5: a successful complete-workout writes exactly one history record,
under the key derived from (userId, workoutDay, date, completedAt with
colons replaced); it deletes the session record and changes nothing else
in the store; and it returns completedAt, totalWorkoutSeconds and
totalRestSeconds. -/
theorem complete_workout_effects (uid sid : String) (now : Timestamp) (store : Store)
    (session : SessionRec) (h : store.sessions sid = some session) :
    (completeWorkout uid sid now store).1 =
      ⟨200, .completed now.iso (sessionTotalRest session)
        (sessionTotalWorkoutSeconds session now)⟩ ∧
    (completeWorkout uid sid now store).2.histories (historyKeyOf uid session now)
      = some (historyRecOf session now) ∧
    (∀ k, k ≠ historyKeyOf uid session now →
      (completeWorkout uid sid now store).2.histories k = store.histories k) ∧
    (completeWorkout uid sid now store).2.sessions sid = none ∧
    (∀ sid2, sid2 ≠ sid →
      (completeWorkout uid sid now store).2.sessions sid2 = store.sessions sid2) ∧
    (completeWorkout uid sid now store).2.weights = store.weights := by
  rw [completeWorkout_some uid sid now store session h]
  refine ⟨rfl, by simp, fun k hk => by simp [hk], by simp, fun sid2 hs => by simp [hs], rfl⟩

/-- C6: calling log-exercise or complete-workout with a sessionId that has
no session record yields an `{error: string}` payload with HTTP status
404, and leaves the key-value store entirely unchanged. -/
theorem missing_session_404 (uid uid2 : String) (body : LogBody) (sid : String)
    (t t2 : Timestamp) (store : Store)
    (h1 : store.sessions body.sessionId = none) (h2 : store.sessions sid = none) :
    logExercise uid body t store = (⟨404, .error "Session not found"⟩, store) ∧
    completeWorkout uid2 sid t2 store = (⟨404, .error "Session not found"⟩, store) :=
  ⟨logExercise_none uid body t store h1, completeWorkout_none uid2 sid t2 store h2⟩

/-- C6 witness: both handlers run against an empty store. -/
theorem missing_session_404_witness :
    logExercise "u1" ⟨"s1", "Bench", [10], .jnum 50, .jnum 90⟩
        ⟨1000, "2024-01-01T00:00:01.000Z"⟩ ⟨fun _ => none, fun _ => none, fun _ => none⟩
      = (⟨404, .error "Session not found"⟩, ⟨fun _ => none, fun _ => none, fun _ => none⟩) ∧
    completeWorkout "u1" "s1" ⟨1000, "2024-01-01T00:00:01.000Z"⟩
        ⟨fun _ => none, fun _ => none, fun _ => none⟩
      = (⟨404, .error "Session not found"⟩, ⟨fun _ => none, fun _ => none, fun _ => none⟩) :=
  missing_session_404 "u1" "u1" ⟨"s1", "Bench", [10], .jnum 50, .jnum 90⟩ "s1"
    ⟨1000, "2024-01-01T00:00:01.000Z"⟩ ⟨1000, "2024-01-01T00:00:01.000Z"⟩
    ⟨fun _ => none, fun _ => none, fun _ => none⟩ rfl rfl

/-- C10: after a successful complete-workout the session key is deleted,
so a repeated complete-workout or a log-exercise with the same sessionId
returns the session-not-found error and writes nothing; each started
session therefore yields at most one history record. -/
theorem complete_workout_once (uid uid2 uid3 : String) (sid : String)
    (t1 t2 t3 : Timestamp) (store : Store) (session : SessionRec) (body : LogBody)
    (h : store.sessions sid = some session) (hb : body.sessionId = sid) :
    (completeWorkout uid sid t1 store).1.status = 200 ∧
    (completeWorkout uid sid t1 store).2.sessions sid = none ∧
    completeWorkout uid2 sid t2 (completeWorkout uid sid t1 store).2
      = (⟨404, .error "Session not found"⟩, (completeWorkout uid sid t1 store).2) ∧
    logExercise uid3 body t3 (completeWorkout uid sid t1 store).2
      = (⟨404, .error "Session not found"⟩, (completeWorkout uid sid t1 store).2) := by
  have hgone : (completeWorkout uid sid t1 store).2.sessions sid = none := by
    rw [completeWorkout_some uid sid t1 store session h]
    simp
  refine ⟨?_, hgone, ?_, ?_⟩
  · rw [completeWorkout_some uid sid t1 store session h]
  · exact completeWorkout_none uid2 sid t2 _ hgone
  · exact logExercise_none uid3 body t3 _ (by rw [hb]; exact hgone)

/-! ## Concrete fixtures used by witnesses and counterexamples -/

def exBench : Exercise := ⟨"Bench", 3, 8, 12, 60⟩

def tStart : Timestamp := ⟨0, "2024-01-01T00:00:00.000Z"⟩

def tNow : Timestamp := ⟨90000, "2024-01-01T00:01:30.000Z"⟩

def sampleLog : ExerciseLogRec := ⟨"Bench", [10, 10, 10], .jnum 50, .jnum 90, tNow.iso⟩

def sampleSession : SessionRec := ⟨"u1", "Monday", [exBench], some tStart, [sampleLog]⟩

def sampleStore : Store :=
  ⟨fun sid => if sid = "s1" then some sampleSession else none, fun _ => none, fun _ => none⟩

def sampleBody : LogBody := ⟨"s1", "Bench", [10, 10, 10], .jnum 50, .jnum 90⟩

/-- C1 witness: a concrete 90-second session with one logged exercise. -/
theorem complete_workout_totals_witness :
    sampleStore.sessions "s1" = some sampleSession ∧
    sampleSession.startedAt = some tStart ∧
    ((completeWorkout "u1" "s1" tNow sampleStore).1 =
      ⟨200, .completed tNow.iso
        ((sampleSession.completedExercises.map (fun e => e.restTakenSeconds.numOr0)).sum)
        (max 0 (jsRound (((tNow.ms - tStart.ms : ℤ) : ℚ) / 1000)))⟩ ∧
    ((completeWorkout "u1" "s1" tNow sampleStore).2.histories
        (historyKeyOf "u1" sampleSession tNow)).map
        (fun hr => (hr.totalWorkoutSeconds, hr.totalRestSeconds))
      = some (max 0 (jsRound (((tNow.ms - tStart.ms : ℤ) : ℚ) / 1000)),
              (sampleSession.completedExercises.map (fun e => e.restTakenSeconds.numOr0)).sum) ∧
    0 ≤ max 0 (jsRound (((tNow.ms - tStart.ms : ℤ) : ℚ) / 1000))) :=
  ⟨rfl, rfl, complete_workout_totals "u1" "s1" tNow tStart sampleStore sampleSession rfl rfl⟩

/-- C5 witness: the binder-free effects at the concrete store. -/
theorem complete_workout_effects_witness :
    sampleStore.sessions "s1" = some sampleSession ∧
    (completeWorkout "u1" "s1" tNow sampleStore).1 =
      ⟨200, .completed tNow.iso (sessionTotalRest sampleSession)
        (sessionTotalWorkoutSeconds sampleSession tNow)⟩ ∧
    (completeWorkout "u1" "s1" tNow sampleStore).2.histories
        (historyKeyOf "u1" sampleSession tNow)
      = some (historyRecOf sampleSession tNow) ∧
    (completeWorkout "u1" "s1" tNow sampleStore).2.sessions "s1" = none ∧
    (completeWorkout "u1" "s1" tNow sampleStore).2.weights = sampleStore.weights :=
  ⟨rfl,
   (complete_workout_effects "u1" "s1" tNow sampleStore sampleSession rfl).1,
   (complete_workout_effects "u1" "s1" tNow sampleStore sampleSession rfl).2.1,
   (complete_workout_effects "u1" "s1" tNow sampleStore sampleSession rfl).2.2.2.1,
   (complete_workout_effects "u1" "s1" tNow sampleStore sampleSession rfl).2.2.2.2.2⟩

/-- C10 witness: complete the concrete session, then retry both calls. -/
theorem complete_workout_once_witness :
    sampleStore.sessions "s1" = some sampleSession ∧
    sampleBody.sessionId = "s1" ∧
    ((completeWorkout "u1" "s1" tNow sampleStore).1.status = 200 ∧
    (completeWorkout "u1" "s1" tNow sampleStore).2.sessions "s1" = none ∧
    completeWorkout "u1" "s1" tNow (completeWorkout "u1" "s1" tNow sampleStore).2
      = (⟨404, .error "Session not found"⟩, (completeWorkout "u1" "s1" tNow sampleStore).2) ∧
    logExercise "u1" sampleBody tNow (completeWorkout "u1" "s1" tNow sampleStore).2
      = (⟨404, .error "Session not found"⟩, (completeWorkout "u1" "s1" tNow sampleStore).2)) :=
  ⟨rfl, rfl,
   complete_workout_once "u1" "u1" "u1" "s1" tNow tNow tNow sampleStore sampleSession
     sampleBody rfl rfl⟩

/-! ## Claim C9: coercions at log time -/

/-- C9 counterexample: the claim says a negative `restTakenSeconds` is
coerced to `0`, but the log-exercise handler computes
`Number(restTakenSeconds) || 0`, which lets negative numbers through: a
log call with `restTakenSeconds = −5` persists `−5`, not `0`. -/
theorem log_exercise_negative_rest_counterexample :
    (((logExercise "u1" ⟨"s1", "Bench", [10, 10, 10], .jnum 50, .jnum (-5)⟩ tNow
        sampleStore).2.sessions "s1").map
      (fun s => s.completedExercises.map (fun e => e.restTakenSeconds)))
      = some [.jnum 90, .jnum (-5)] ∧
    JVal.jnum (-5) ≠ JVal.jnum 0 := by
  constructor
  · rfl
  · intro hcontra
    have : (-5 : ℚ) = 0 := by injection hcontra
    norm_num at this

/-- C9 amended: at log time the server coerces `restTakenSeconds` with
`Number(x) || 0` — non-numeric values become `0`, while every numeric
value (negative or arbitrarily large) is stored unchanged — and stores
`weight` as sent; the client coerces `weight` with `parseFloat(weight) || 0`,
so an unparsable weight becomes `0` and any parsed number (of any
magnitude) passes through.  No upper bound is enforced on either value. -/
theorem log_exercise_coercions (uid : String) (body : LogBody) (now : Timestamp)
    (store : Store) (session : SessionRec)
    (h : store.sessions body.sessionId = some session) :
    ((logExercise uid body now store).2.sessions body.sessionId).map
        (fun s => s.completedExercises)
      = some (session.completedExercises ++
          [⟨body.exerciseName, body.setsData, body.weight,
            .jnum body.restTakenSeconds.numOr0, now.iso⟩]) ∧
    JVal.numOr0 .jnan = 0 ∧
    (∀ q : ℚ, JVal.numOr0 (.jnum q) = q) ∧
    clientParsedWeight .jnan = 0 ∧
    (∀ q : ℚ, clientParsedWeight (.jnum q) = q) := by
  refine ⟨?_, rfl, fun q => rfl, rfl, fun q => rfl⟩
  unfold logExercise
  rw [h]
  simp [logEntryOf]

/-- C9 witness: the concrete log call stores the coerced entry. -/
theorem log_exercise_coercions_witness :
    sampleStore.sessions "s1" = some sampleSession ∧
    (((logExercise "u1" sampleBody tNow sampleStore).2.sessions "s1").map
        (fun s => s.completedExercises)
      = some (sampleSession.completedExercises ++
          [⟨"Bench", [10, 10, 10], .jnum 50, .jnum ((JVal.jnum 90).numOr0), tNow.iso⟩]) ∧
    JVal.numOr0 .jnan = 0 ∧
    clientParsedWeight .jnan = 0) :=
  ⟨rfl,
   (log_exercise_coercions "u1" sampleBody tNow sampleStore sampleSession rfl).1,
   (log_exercise_coercions "u1" sampleBody tNow sampleStore sampleSession rfl).2.1,
   (log_exercise_coercions "u1" sampleBody tNow sampleStore sampleSession rfl).2.2.2.1⟩

/-! ## Claim C8: completedExercises versus the plan size -/

/-- C8 counterexample: the server enforces no bound — two log-exercise
calls against a session whose plan has a single exercise leave
`completedExercises` with 2 entries, exceeding the plan's count of 1. -/
theorem completed_exceeds_plan_counterexample :
    (let body : LogBody := ⟨"s2", "Bench", [10], .jnum 50, .jnum 0⟩
    let store : Store :=
      ⟨fun sid => if sid = "s2"
          then some ⟨"u1", "Monday", [exBench], some tStart, []⟩ else none,
       fun _ => none, fun _ => none⟩
    let store2 := (logExercise "u1" body tNow (logExercise "u1" body tNow store).2).2
    ((store2.sessions "s2").map
      (fun s => (s.completedExercises.length, s.exercises.length)))
      = some (2, 1)) ∧ ¬ (2 : ℕ) ≤ 1 := by
  exact ⟨rfl, by norm_num⟩

/-! ## C8 amended: the client UI driver

In the ActiveWorkout component an exercise's Start button is rendered only
while the exercise is not in the `completedExercises` set, and `logExercise`
requires a focused exercise, adds its index to the set and clears the
focus.  The abstract client session state machine: -/

structure ClientWorkoutState where
  currentExerciseIndex : Option ℕ
  completedExercises : Finset ℕ
  loggedCount : ℕ
deriving DecidableEq

/-- The component's initial state: no focus, nothing completed, no log
calls issued. -/
def initClientState : ClientWorkoutState := ⟨none, ∅, 0⟩

/-- One UI-driven transition over a plan of `n` exercises:
`startExercise i` (offered only for `i` not yet completed), a successful
`logExercise` (increments the count of log-exercise calls, marks the
focused index completed, clears the focus), or backing out of the focused
exercise. -/
inductive ClientStep (n : ℕ) : ClientWorkoutState → ClientWorkoutState → Prop where
  | startExercise (s : ClientWorkoutState) (i : ℕ) (hi : i < n)
      (hnc : i ∉ s.completedExercises) :
      ClientStep n s { s with currentExerciseIndex := some i }
  | logExercise (s : ClientWorkoutState) (i : ℕ) (hc : s.currentExerciseIndex = some i) :
      ClientStep n s ⟨none, insert i s.completedExercises, s.loggedCount + 1⟩
  | deselect (s : ClientWorkoutState) :
      ClientStep n s { s with currentExerciseIndex := none }

/-- Invariant of the client machine: the log count equals the number of
completed indices, completed indices lie in the plan, and the focused
index (if any) is a not-yet-completed plan index. -/
def ClientInv (n : ℕ) (s : ClientWorkoutState) : Prop :=
  s.loggedCount = s.completedExercises.card ∧
  s.completedExercises ⊆ Finset.range n ∧
  ∀ i, s.currentExerciseIndex = some i → i < n ∧ i ∉ s.completedExercises

lemma clientInv_init (n : ℕ) : ClientInv n initClientState := by
  refine ⟨rfl, ?_, ?_⟩ <;> simp [initClientState]

lemma clientInv_step {n : ℕ} {s s₂ : ClientWorkoutState}
    (hstep : ClientStep n s s₂) (hinv : ClientInv n s) : ClientInv n s₂ := by
  obtain ⟨h1, h2, h3⟩ := hinv
  cases hstep with
  | startExercise i hi hnc =>
    refine ⟨h1, h2, ?_⟩
    intro j hj
    have hij : i = j := by simpa using hj
    subst hij
    exact ⟨hi, hnc⟩
  | logExercise i hc =>
    have hic := h3 i hc
    refine ⟨?_, ?_, ?_⟩
    · show s.loggedCount + 1 = (insert i s.completedExercises).card
      rw [Finset.card_insert_of_not_mem hic.2, h1]
    · intro x hx
      rcases Finset.mem_insert.mp hx with rfl | hx2
      · exact Finset.mem_range.mpr hic.1
      · exact h2 hx2
    · intro j hj
      simp at hj
  | deselect =>
    refine ⟨h1, h2, ?_⟩
    intro j hj
    simp at hj

/-- C8 amended: under the client UI driver — where Start is only offered
for not-yet-completed exercises — each plan index is logged at most once,
so the number of log-exercise calls a session receives (and hence its
`completedExercises` length, starting from the empty list) never exceeds
the plan's exercise count.  (The server itself enforces no bound; see the
counterexample.) -/
theorem client_log_count_bounded (n : ℕ) (s : ClientWorkoutState)
    (h : Relation.ReflTransGen (ClientStep n) initClientState s) :
    s.loggedCount ≤ n := by
  have hinv : ClientInv n s := by
    induction h with
    | refl => exact clientInv_init n
    | tail hsteps hstep ih => exact clientInv_step hstep ih
  rw [hinv.1]
  calc s.completedExercises.card ≤ (Finset.range n).card := Finset.card_le_card hinv.2.1
    _ = n := Finset.card_range n

/-- C8 witness: the state reached by starting exercise 0 of a 2-exercise
plan. -/
theorem client_log_count_bounded_witness :
    ({ currentExerciseIndex := some 0, completedExercises := ∅, loggedCount := 0 } :
      ClientWorkoutState).loggedCount ≤ 2 :=
  client_log_count_bounded 2 _
    (Relation.ReflTransGen.single
      (ClientStep.startExercise initClientState 0 (by decide) (by decide)))

/-! ## Claim C7: the streak computation -/

lemma streakLoop_spec : ∀ (l : List ℤ) (e : ℤ), l.Pairwise (· > ·) → (∀ x ∈ l, x ≤ e) →
    (∀ k : ℕ, k < streakLoop l e → (e - (k : ℤ)) ∈ l) ∧ ((e - (streakLoop l e : ℤ)) ∉ l)
  | [], e, _, _ => by simp [streakLoop]
  | h :: t, e, hp, hle => by
    rw [List.pairwise_cons] at hp
    obtain ⟨hht, hpt⟩ := hp
    by_cases he : h = e
    · subst he
      have htle : ∀ x ∈ t, x ≤ h - 1 := fun x hx => by
        have := hht x hx
        omega
      obtain ⟨ih1, ih2⟩ := streakLoop_spec t (h - 1) hpt htle
      have hsl : streakLoop (h :: t) h = streakLoop t (h - 1) + 1 := by
        rw [streakLoop, if_pos rfl]
      rw [hsl]
      constructor
      · intro k hk
        match k with
        | 0 => simp
        | Nat.succ j =>
          have hj : j < streakLoop t (h - 1) := by omega
          have hmem := ih1 j hj
          have heq : h - ((j + 1 : ℕ) : ℤ) = (h - 1) - (j : ℤ) := by push_cast; ring
          rw [heq]
          exact List.mem_cons_of_mem _ hmem
      · intro hmem
        rcases List.mem_cons.mp hmem with heq | hmem2
        · push_cast at heq
          omega
        · apply ih2
          have heq2 : h - ((streakLoop t (h - 1) + 1 : ℕ) : ℤ)
              = (h - 1) - (streakLoop t (h - 1) : ℤ) := by push_cast; ring
          rw [heq2] at hmem2
          exact hmem2
    · have hz : streakLoop (h :: t) e = 0 := by rw [streakLoop, if_neg he]
      rw [hz]
      constructor
      · intro k hk
        omega
      · intro hmem
        have hhe : h ≤ e := hle h (List.mem_cons_self h t)
        rcases List.mem_cons.mp hmem with heq | hmem2
        · push_cast at heq
          exact he (by omega)
        · have hgt := hht _ hmem2
          push_cast at hgt
          omega

/-- C7: the streak endpoint returns the length of the maximal run of
consecutive calendar days ending today that each have at least one
completed workout: every day in the run (`today − k` for `k` below the
streak) has a completion, and the day just past the run does not — so 3
consecutive completion days ending today give streak 3, and a gap limits
the streak to the trailing consecutive run. -/
theorem streak_counts_consecutive_days (dates : List ℤ) (today : ℤ)
    (hle : ∀ d ∈ dates, d ≤ today) :
    (∀ k : ℕ, k < streak dates today → (today - (k : ℤ)) ∈ dates) ∧
    ((today - (streak dates today : ℤ)) ∉ dates) := by
  have hmem : ∀ x : ℤ, x ∈ (dates.dedup.insertionSort (· ≤ ·)).reverse ↔ x ∈ dates := by
    intro x
    rw [List.mem_reverse, List.mem_insertionSort, List.mem_dedup]
  have hsorted : List.Sorted (· ≤ ·) (dates.dedup.insertionSort (· ≤ ·)) :=
    List.sorted_insertionSort _ _
  have hnd : (dates.dedup.insertionSort (· ≤ ·)).Nodup :=
    (List.perm_insertionSort _ _).nodup_iff.mpr (List.nodup_dedup dates)
  have hlt : (dates.dedup.insertionSort (· ≤ ·)).Pairwise (· < ·) :=
    (List.Pairwise.and hsorted hnd).imp (fun hab => lt_of_le_of_ne hab.1 hab.2)
  have hgt : ((dates.dedup.insertionSort (· ≤ ·)).reverse).Pairwise (· > ·) := by
    rw [List.pairwise_reverse]
    exact hlt
  have hle2 : ∀ x ∈ (dates.dedup.insertionSort (· ≤ ·)).reverse, x ≤ today :=
    fun x hx => hle x ((hmem x).mp hx)
  have hspec := streakLoop_spec _ today hgt hle2
  unfold streak
  constructor
  · intro k hk
    exact (hmem _).mp (hspec.1 k hk)
  · intro hin
    exact hspec.2 ((hmem _).mpr hin)

/-- C7 witness: completions on days 3, 4 and 5 with today = 5: the day
just past the streak (5 − streak) has no completion, while day 5 − 2
does. -/
theorem streak_counts_consecutive_days_witness :
    ((5 : ℤ) - (streak [5, 4, 3] 5 : ℤ)) ∉ ([5, 4, 3] : List ℤ) ∧
    ((5 : ℤ) - ((2 : ℕ) : ℤ)) ∈ ([5, 4, 3] : List ℤ) :=
  ⟨(streak_counts_consecutive_days [5, 4, 3] 5 (by decide)).2,
   (streak_counts_consecutive_days [5, 4, 3] 5 (by decide)).1 2 (by decide)⟩

end GymApp
